import Mathlib

/-
Shallow embedding of the Task Orchestration & Resilience Layer:
- src/services/circuit_breaker.py  (CircuitBreaker)
- src/services/idempotency.py      (IdempotencyStore)
- src/services/cost_tracker.py     (CostTracker)
- src/services/git_lock.py         (GitLockManager)
- src/services/agent_runner.py     (AgentRunner)
- src/agents/boss.py               (Boss.monitor_task)
- src/tools/auto_merge.py          (merge sweep)

Modelling conventions:
- Wall-clock instants are integers (Nat for the monotone clocks read via
  time.time(), Int where datetime differences can be negative).  Float
  timestamps are modelled exactly; the properties proved only compare
  timestamps, so the exact representation is immaterial.
- Python dicts persisted as JSON objects are modelled as association lists
  with string keys; assignment replaces the first binding of a key and
  appends otherwise, matching dict update on a well-formed (duplicate-free)
  object.
- Monetary amounts (floats in the source) are modelled as rationals; the
  proved properties use only ordering and addition of non-negative amounts,
  which float arithmetic also preserves.
- Subprocess and filesystem effects are modelled by explicit environment
  values describing the outcome of each external step.
-/

namespace Util

/-- Assignment `d[k] = v` on a Python dict modelled as an association list:
replace the first binding of `k`, append if absent. -/
def dictInsert {α : Type} (k : String) (v : α) : List (String × α) → List (String × α)
  | [] => [(k, v)]
  | (k1, v1) :: rest =>
    if k1 = k then (k, v) :: rest else (k1, v1) :: dictInsert k v rest

end Util

namespace CircuitBreaker

/-- State of a single circuit breaker (src/services/circuit_breaker.py,
class CircuitState, lines 31-42). -/
structure CircuitState where
  failures : Nat
  successes : Nat
  last_failure_time : Option Nat
  opened_at : Option Nat
  max_failures : Nat
  timeout_seconds : Nat
  half_open_after : Nat
deriving Repr, DecidableEq

/-- CircuitBreaker.is_open (lines 77-90): open iff `opened_at` is set and the
elapsed time since opening has not yet exceeded `half_open_after`.  `now` is
the value read from time.time(); `opened_at` was recorded from an earlier
read of the same clock, so `now - t` matches the source's elapsed time. -/
def is_open (now : Nat) (s : CircuitState) : Bool :=
  match s.opened_at with
  | none => false
  | some t => if s.half_open_after < now - t then false else true

/-- CircuitBreaker.is_half_open (lines 92-100). -/
def is_half_open (now : Nat) (s : CircuitState) : Bool :=
  match s.opened_at with
  | none => false
  | some t => decide (s.half_open_after < now - t)

/-- CircuitBreaker.record_success (lines 102-112): increment `successes`;
if the circuit is open (`opened_at` set), clear `opened_at` and reset
`failures` to zero.  Note the source clears on ANY success while open,
without consulting the half-open window. -/
def record_success (s : CircuitState) : CircuitState :=
  let s1 := { s with successes := s.successes + 1 }
  match s1.opened_at with
  | some _ => { s1 with opened_at := none, failures := 0 }
  | none => s1

/-- CircuitBreaker.record_failure (lines 114-128): increment `failures`,
stamp `last_failure_time`; once `failures >= max_failures`, set `opened_at`
to the current time unless already set. -/
def record_failure (now : Nat) (s : CircuitState) : CircuitState :=
  let s1 := { s with failures := s.failures + 1, last_failure_time := some now }
  if s1.max_failures ≤ s1.failures then
    match s1.opened_at with
    | none => { s1 with opened_at := some now }
    | some _ => s1
  else s1

/-- A circuit that opened at time 100 with the default config of the
vertex breaker (max_failures 5, half_open_after 60), used as a concrete
input below. -/
def openCircuit : CircuitState :=
  { failures := 5, successes := 0, last_failure_time := some 100
    opened_at := some 100, max_failures := 5, timeout_seconds := 300
    half_open_after := 60 }

/-- A closed circuit with two accumulated failures, used as a concrete
input below. -/
def closedCircuit : CircuitState :=
  { failures := 2, successes := 5, last_failure_time := some 7
    opened_at := none, max_failures := 5, timeout_seconds := 300
    half_open_after := 60 }

/-- A fresh closed circuit with threshold 3, used as a concrete input
below. -/
def freshCircuit : CircuitState :=
  { failures := 0, successes := 0, last_failure_time := none
    opened_at := none, max_failures := 3, timeout_seconds := 300
    half_open_after := 60 }

end CircuitBreaker

namespace Idempotency

/-- One entry of data/idempotency.json (src/services/idempotency.py,
IdempotencyStore.record, lines 120-124).  `recorded_at` is a UTC timestamp
in seconds. -/
structure IdemRecord where
  operation : String
  recorded_at : Int
  result_path : Option String
deriving Repr, DecidableEq

/-- The TTL of the store, `timedelta(hours=self.ttl_hours)`, in seconds. -/
def ttlSeconds (ttl_hours : Nat) : Int := 3600 * ttl_hours

/-- Whether a record survives `_cleanup_expired` at time `now`:
`recorded_at > now - timedelta(hours=ttl_hours)` (lines 58-66). -/
def notExpired (now : Int) (ttl_hours : Nat) (r : IdemRecord) : Bool :=
  decide (now - ttlSeconds ttl_hours < r.recorded_at)

/-- IdempotencyStore._cleanup_expired (lines 56-70): keep exactly the
entries whose `recorded_at` is younger than the cutoff. -/
def cleanup_expired (now : Int) (ttl : Nat) (data : List (String × IdemRecord)) :
    List (String × IdemRecord) :=
  data.filter (fun kv => notExpired now ttl kv.2)

/-- The composite key `f"{key}:{operation}"`. -/
def fullKey (key op : String) : String := key ++ ":" ++ op

/-- IdempotencyStore.check (lines 86-105): load, drop expired entries
(in memory only; the cleaned data is not written back), and test membership
of the composite key. -/
def check (now : Int) (ttl : Nat) (data : List (String × IdemRecord))
    (key op : String) : Bool :=
  ((cleanup_expired now ttl data).lookup (fullKey key op)).isSome

/-- IdempotencyStore.record (lines 107-127): load, drop expired entries,
store the new record under the composite key, and save the result. -/
def record (now : Int) (ttl : Nat) (data : List (String × IdemRecord))
    (key op : String) (result_path : Option String) : List (String × IdemRecord) :=
  Util.dictInsert (fullKey key op) ⟨op, now, result_path⟩ (cleanup_expired now ttl data)

/-- IdempotencyStore.get_cached_result (lines 129-137): load and look the
composite key up directly — no `_cleanup_expired` call, so the TTL is never
consulted. -/
def get_cached_result (data : List (String × IdemRecord)) (key op : String) :
    Option String :=
  match data.lookup (fullKey key op) with
  | some r => r.result_path
  | none => none

/-- A store containing one long-expired record, used as a concrete input
below. -/
def staleData : List (String × IdemRecord) :=
  [("k:op", ⟨"op", 0, some "results/prd.md"⟩)]

end Idempotency

namespace CostTracker

/-- One day's entry of data/costs.json (src/services/cost_tracker.py,
CostTracker.record, lines 115-120). -/
structure DayEntry where
  spent : ℚ
  tokens : Nat
  requests : Nat
deriving Repr, DecidableEq

/-- The persisted ledger, keyed by day string. -/
abbrev Ledger : Type := List (String × DayEntry)

/-- COST_PER_1K lookup with the source's default of 0.00035 for unknown
models (lines 28-33 and 110). -/
def cost_per_1k (model : String) : ℚ :=
  if model = "gemini-2.0-flash" then 35/100000
  else if model = "gemini-2.0-pro" then 25/10000
  else if model = "gemini-1.5-flash" then 1/10000
  else if model = "gemini-1.5-pro" then 125/100000
  else 35/100000

/-- CostTracker.get_spent_today (lines 67-70). -/
def get_spent_today (data : Ledger) (today : String) : ℚ :=
  match List.lookup today data with
  | some e => e.spent
  | none => 0

/-- The 80% alert threshold (line 45). -/
def alert_threshold : ℚ := 8/10

/-- CostTracker.check (lines 72-100): if today's spend plus the estimate
exceeds the budget, record five failures on the shared vertex circuit
breaker, raise an alert, and return False; otherwise return True.  Returns
(allowed, breaker afterwards, alert raised). -/
def check (budget : ℚ) (data : Ledger) (today : String) (est : ℚ)
    (cb : CircuitBreaker.CircuitState) (now : Nat) :
    Bool × CircuitBreaker.CircuitState × Bool :=
  let spent := get_spent_today data today
  if budget < spent + est then
    (false,
      CircuitBreaker.record_failure now (CircuitBreaker.record_failure now
        (CircuitBreaker.record_failure now (CircuitBreaker.record_failure now
          (CircuitBreaker.record_failure now cb)))),
      true)
  else (true, cb, false)

/-- CostTracker.record (lines 102-129): convert tokens to cost via the
price table, add to today's entry (creating it at zero if absent), save,
and raise a warning once spend reaches 80% of budget.  Returns the updated
ledger and the warning flag. -/
def record (budget : ℚ) (data : Ledger) (today : String) (tokens : Nat)
    (model : String) : Ledger × Bool :=
  let cost := ((tokens : ℚ) / 1000) * cost_per_1k model
  let entry := (List.lookup today data).getD ⟨0, 0, 0⟩
  let entry2 : DayEntry :=
    ⟨entry.spent + cost, entry.tokens + tokens, entry.requests + 1⟩
  (Util.dictInsert today entry2 data, decide (alert_threshold ≤ entry2.spent / budget))

/-- A same-day sequence of `record(tokens, model)` calls folded over the
ledger. -/
def recordMany (budget : ℚ) (today : String) (ops : List (Nat × String))
    (data : Ledger) : Ledger :=
  ops.foldl (fun d op => (record budget d today op.1 op.2).1) data

/-- A ledger already at its 50-dollar budget today, used as a concrete
input below. -/
def fullLedger : Ledger := [("2026-10-12", ⟨50, 1000, 1⟩)]

end CostTracker

namespace GitLock

/-- Outcome of one `subprocess.run` git step: zero exit, non-zero exit, or
a raised exception (TimeoutExpired or anything else). -/
inductive StepRes
  | ok
  | fail
  | raiseTimeout
  | raiseOther
deriving Repr, DecidableEq

/-- Outcome of the `git commit` step, which additionally special-cases a
non-zero exit whose output contains "nothing to commit"
(src/services/git_lock.py, lines 102-107). -/
inductive CommitStepRes
  | ok
  | nothingToCommit
  | fail
  | raiseTimeout
  | raiseOther
deriving Repr, DecidableEq

/-- Exceptions that can escape the git-command sequence into the
try/except of safe_commit or safe_merge. -/
inductive GitExn
  | timeoutExpired
  | otherExn
deriving Repr, DecidableEq

/-- Environment describing the outcomes of the three git steps of
safe_commit. -/
structure CommitEnv where
  addRes : StepRes
  commitRes : CommitStepRes
  pushRes : StepRes
deriving Repr, DecidableEq

/-- Environment describing the outcomes of the three git steps of
safe_merge. -/
structure MergeEnv where
  checkoutRes : StepRes
  mergeRes : StepRes
  deleteRes : StepRes
deriving Repr, DecidableEq

/-- Result of safe_commit or safe_merge: either the TimeoutError raised
when the lock could not be acquired, or the returned boolean. -/
inductive OpOutcome
  | raisedLockTimeout
  | returned (b : Bool)
deriving Repr, DecidableEq

/-- Result together with whether this manager still holds the lock file
when the call returns. -/
structure OpResult where
  outcome : OpOutcome
  lockHeldAfter : Bool
deriving Repr, DecidableEq

/-- GitLockManager._acquire_lock retry loop (lines 31-57): attempt `k`
succeeds iff the lock file can be created exclusively then (`free k`,
which also covers reclaiming a stale lock); the loop is bounded by the
30-second timeout at 0.5-second sleeps, hence at most 60 attempts. -/
def acquireLoop (free : Nat → Bool) : Nat → Nat → Bool
  | 0, _ => false
  | fuel + 1, k => if free k then true else acquireLoop free fuel (k + 1)

/-- GitLockManager._acquire_lock (lines 31-57). -/
def acquire_lock (free : Nat → Bool) : Bool := acquireLoop free 60 0

/-- GitLockManager._release_lock (lines 59-65): unlink the lock file,
ignoring errors; afterwards the lock is not held. -/
def release_lock (_held : Bool) : Bool := false

/-- The try-block of safe_commit (lines 89-129): add, commit (with the
"nothing to commit" special case), optional push; exceptions propagate to
the except clauses. -/
def commitBody (env : CommitEnv) (push : Bool) : Except GitExn Bool :=
  match env.addRes with
  | .fail => .ok false
  | .raiseTimeout => .error .timeoutExpired
  | .raiseOther => .error .otherExn
  | .ok =>
    match env.commitRes with
    | .fail => .ok false
    | .nothingToCommit => .ok true
    | .raiseTimeout => .error .timeoutExpired
    | .raiseOther => .error .otherExn
    | .ok =>
      if push then
        match env.pushRes with
        | .ok => .ok true
        | .fail => .ok false
        | .raiseTimeout => .error .timeoutExpired
        | .raiseOther => .error .otherExn
      else .ok true

/-- The try-block of safe_merge (lines 153-180): checkout with check=True
(a non-zero exit raises CalledProcessError), merge --no-ff, optional
branch deletion whose exit status is ignored. -/
def mergeBody (env : MergeEnv) (delete_after : Bool) : Except GitExn Bool :=
  match env.checkoutRes with
  | .fail => .error .otherExn
  | .raiseTimeout => .error .timeoutExpired
  | .raiseOther => .error .otherExn
  | .ok =>
    match env.mergeRes with
    | .fail => .ok false
    | .raiseTimeout => .error .timeoutExpired
    | .raiseOther => .error .otherExn
    | .ok =>
      if delete_after then
        match env.deleteRes with
        | .raiseTimeout => .error .timeoutExpired
        | .raiseOther => .error .otherExn
        | _ => .ok true
      else .ok true

/-- The except clauses of both operations: every caught exception yields a
False return value. -/
def runCatch (body : Except GitExn Bool) : Bool :=
  match body with
  | .ok b => b
  | .error _ => false

/-- GitLockManager.safe_commit (lines 67-131): raise TimeoutError if the
lock cannot be acquired; otherwise run the body under try/except/finally,
releasing the lock on every path. -/
def safe_commit (free : Nat → Bool) (env : CommitEnv) (push : Bool) : OpResult :=
  if acquire_lock free then
    let held := true
    let r := runCatch (commitBody env push)
    { outcome := .returned r, lockHeldAfter := release_lock held }
  else
    { outcome := .raisedLockTimeout, lockHeldAfter := false }

/-- GitLockManager.safe_merge (lines 133-186): same locking discipline
around checkout + merge + optional branch deletion. -/
def safe_merge (free : Nat → Bool) (env : MergeEnv) (delete_after : Bool) : OpResult :=
  if acquire_lock free then
    let held := true
    let r := runCatch (mergeBody env delete_after)
    { outcome := .returned r, lockHeldAfter := release_lock held }
  else
    { outcome := .raisedLockTimeout, lockHeldAfter := false }

/-- Whether the operation returned normally (rather than raising the lock
TimeoutError). -/
def outcomeIsReturn : OpOutcome → Bool
  | .returned _ => true
  | .raisedLockTimeout => false

end GitLock

namespace AgentRunner

/-- The supervised subprocess, seen through Popen.poll(): it exits at tick
`exitTime` (none = never during the window of interest) with `exitCode`;
a poll at elapsed time `t` observes the exit iff `exitTime ≤ t`. -/
structure Proc where
  exitTime : Option Nat
  exitCode : Int
deriving Repr, DecidableEq

/-- Result of wait_for_completion: the returned boolean and whether stop()
was invoked on the timeout path. -/
structure WaitOutcome where
  success : Bool
  stopCalled : Bool
deriving Repr, DecidableEq

/-- One Popen.poll() call at elapsed time `elapsed`. -/
def pollExit (p : Proc) (elapsed : Nat) : Option Int :=
  match p.exitTime with
  | none => none
  | some e => if e ≤ elapsed then some p.exitCode else none

/-- The polling loop of AgentRunner.wait_for_completion
(src/services/agent_runner.py, lines 252-274) for a runner that started
the process itself (self.process set): while elapsed < timeout, poll; on
an observed exit return (code == 0); otherwise sleep poll_interval;
on leaving the loop call stop() and return False.  `fuel` bounds the
number of iterations; `timeout + 1` iterations always suffice when
`poll ≥ 1`, and the fuel-exhausted value coincides with the timeout
branch. -/
def waitLoop (p : Proc) (timeout poll : Nat) : Nat → Nat → WaitOutcome
  | 0, _ => ⟨false, true⟩
  | fuel + 1, elapsed =>
    if elapsed < timeout then
      match pollExit p elapsed with
      | some c => ⟨decide (c = 0), false⟩
      | none => waitLoop p timeout poll fuel (elapsed + poll)
    else ⟨false, true⟩

/-- AgentRunner.wait_for_completion (lines 233-274). -/
def wait_for_completion (p : Proc) (timeout poll : Nat) : WaitOutcome :=
  waitLoop p timeout poll (timeout + 1) 0

/-- Environment of AgentRunner.stop (lines 121-167): whether the pid file
names a pid, and whether the process disappears within the graceful
window after SIGTERM. -/
structure StopEnv where
  pidPresent : Bool
  gracefulExit : Bool
deriving Repr, DecidableEq

/-- Result of AgentRunner.stop: the returned boolean, whether the process
is still running afterwards, and whether the pid file remains. -/
structure StopResult where
  returned : Bool
  runningAfter : Bool
  pidFilePresentAfter : Bool
deriving Repr, DecidableEq

/-- AgentRunner.stop (lines 121-167): without a pid it returns True and
touches nothing; with a pid it SIGTERMs, polls for the graceful window,
escalates to SIGKILL if the process is still alive, and removes the pid
file in every case.  `running` is whether the process was actually alive
on entry. -/
def stop (running : Bool) (env : StopEnv) : StopResult :=
  if env.pidPresent = false then ⟨true, running, false⟩
  else if env.gracefulExit then ⟨true, false, false⟩
  else ⟨false, false, false⟩

end AgentRunner

namespace Boss

/-- The task metadata fields read and written by Boss.monitor_task.
WorkspaceManager (services/workspace_manager.py) is not under src/; its
get_meta and update_meta are modelled from the spec: get_meta returns the
task's metadata record or None, and update_meta is a merge-style partial
update that only changes the fields mentioned. -/
structure TaskMeta where
  status : String
  agent : String
  last_heartbeat : Option Int
  reason : Option String
deriving Repr, DecidableEq

/-- Result of Boss.monitor_task: the returned liveness boolean, whether
runner.stop() was invoked, and the metadata afterwards. -/
structure MonitorResult where
  alive : Bool
  stopped : Bool
  meta_after : Option TaskMeta
deriving Repr, DecidableEq

/-- Boss.monitor_task (src/agents/boss.py, lines 271-319): missing
metadata returns False untouched; a missing last_heartbeat returns True
("might be starting"); a heartbeat older than heartbeat_timeout seconds
kills the agent and merges {status: failed, reason: heartbeat_timeout}
into the metadata, returning False; otherwise returns True. -/
def monitor_task (now : Int) (heartbeat_timeout : Nat) (meta : Option TaskMeta) :
    MonitorResult :=
  match meta with
  | none => ⟨false, false, none⟩
  | some m =>
    match m.last_heartbeat with
    | none => ⟨true, false, some m⟩
    | some hb =>
      if (heartbeat_timeout : Int) < now - hb then
        ⟨false, true, some { m with status := "failed", reason := some "heartbeat_timeout" }⟩
      else ⟨true, false, some m⟩

/-- A started task that never wrote a heartbeat, used as a concrete input
below. -/
def neverBeatMeta : TaskMeta :=
  { status := "running", agent := "cpo", last_heartbeat := none, reason := none }

end Boss

namespace AutoMerge

/-- The metadata fields consulted by the merge sweep
(src/tools/auto_merge.py). -/
structure WsMeta where
  status : String
  xp_reward : Option Int
deriving Repr, DecidableEq

/-- One workspace as returned by WorkspaceManager.list_workspaces.
WorkspaceManager is not under src/; list_workspaces and remove are
modelled from the spec: one workspace per task_id, and remove destroys
exactly that workspace. -/
structure Workspace where
  task_id : String
  meta : WsMeta
deriving Repr, DecidableEq

/-- should_auto_merge (src/tools/auto_merge.py, lines 32-46):
status == "completed" and (xp_reward or 0) >= min_xp. -/
def should_auto_merge (meta : WsMeta) (min_xp : Int) : Bool :=
  decide (meta.status = "completed") && decide (min_xp ≤ meta.xp_reward.getD 0)

/-- Result of one run_auto_merge pass. -/
structure SweepResult where
  remaining : List Workspace
  merged_branches : List String
  merged : Nat
  skipped : Nat
  failed : Nat
deriving Repr, DecidableEq

/-- run_auto_merge with dry_run=False (lines 85-118), with auto_merge_task
(lines 49-82) inlined: for each listed workspace, if it qualifies, call
GitLockManager.safe_merge on branch "feat/{task_id}" into main — its
success abstracted by the oracle `mergeOk` (False also covers a raised
exception, both counted as failed) — and on success remove the workspace;
otherwise skip it untouched. -/
def run_auto_merge (mergeOk : String → Bool) (min_xp : Int) :
    List Workspace → SweepResult
  | [] => ⟨[], [], 0, 0, 0⟩
  | ws :: rest =>
    let r := run_auto_merge mergeOk min_xp rest
    if should_auto_merge ws.meta min_xp then
      if mergeOk ws.task_id then
        ⟨r.remaining, ("feat/" ++ ws.task_id) :: r.merged_branches,
          r.merged + 1, r.skipped, r.failed⟩
      else
        ⟨ws :: r.remaining, r.merged_branches, r.merged, r.skipped, r.failed + 1⟩
    else
      ⟨ws :: r.remaining, r.merged_branches, r.merged, r.skipped + 1, r.failed⟩

/-- A two-workspace pool, one qualifying and one not, used as a concrete
input below. -/
def samplePool : List Workspace :=
  [⟨"t1", ⟨"completed", some 85⟩⟩, ⟨"t2", ⟨"running", some 90⟩⟩]

end AutoMerge

namespace CircuitBreaker

lemma record_failure_opened_of_some (now t : Nat) (s : CircuitState)
    (h : s.opened_at = some t) : (record_failure now s).opened_at = some t := by
  unfold record_failure
  simp only [h]
  split <;> simp

lemma iterate_record_failure_opened_of_some (now t : Nat) :
    ∀ (k : Nat) (s : CircuitState), s.opened_at = some t →
      ((record_failure now)^[k] s).opened_at = some t := by
  intro k
  induction k with
  | zero => intro s h; simpa using h
  | succ n ih =>
    intro s h
    rw [Function.iterate_succ_apply]
    exact ih _ (record_failure_opened_of_some now t s h)

lemma record_failure_failures (now : Nat) (s : CircuitState) :
    (record_failure now s).failures = s.failures + 1 := by
  rcases h : s.opened_at with _ | t <;>
    by_cases hc : s.max_failures ≤ s.failures + 1 <;>
      simp [record_failure, h, hc]

lemma record_failure_max (now : Nat) (s : CircuitState) :
    (record_failure now s).max_failures = s.max_failures := by
  rcases h : s.opened_at with _ | t <;>
    by_cases hc : s.max_failures ≤ s.failures + 1 <;>
      simp [record_failure, h, hc]

lemma record_failure_half (now : Nat) (s : CircuitState) :
    (record_failure now s).half_open_after = s.half_open_after := by
  rcases h : s.opened_at with _ | t <;>
    by_cases hc : s.max_failures ≤ s.failures + 1 <;>
      simp [record_failure, h, hc]

lemma iterate_record_failure_half (now : Nat) :
    ∀ (k : Nat) (s : CircuitState),
      ((record_failure now)^[k] s).half_open_after = s.half_open_after := by
  intro k
  induction k with
  | zero => intro s; simp
  | succ n ih =>
    intro s
    rw [Function.iterate_succ_apply, ih, record_failure_half]

lemma record_failure_below (now : Nat) (s : CircuitState)
    (h : s.failures + 1 < s.max_failures) :
    record_failure now s =
      { s with failures := s.failures + 1, last_failure_time := some now } := by
  unfold record_failure
  simp only []
  rw [if_neg (by omega)]

lemma record_failure_reaches (now : Nat) (s : CircuitState)
    (hop : s.opened_at = none) (h : s.max_failures ≤ s.failures + 1) :
    record_failure now s =
      { s with failures := s.failures + 1, last_failure_time := some now
               opened_at := some now } := by
  unfold record_failure
  simp only [hop]
  rw [if_pos (by omega)]

lemma opened_iterate_some (now : Nat) :
    ∀ (k : Nat) (s : CircuitState), s.opened_at = none → 1 ≤ k →
      s.max_failures ≤ s.failures + k →
      ((record_failure now)^[k] s).opened_at = some now := by
  intro k
  induction k with
  | zero => intro s _ h; omega
  | succ n ih =>
    intro s hop _ hmax
    rw [Function.iterate_succ_apply]
    by_cases hc : s.max_failures ≤ s.failures + 1
    · have h1 : (record_failure now s).opened_at = some now := by
        rw [record_failure_reaches now s hop hc]
      exact iterate_record_failure_opened_of_some now now n _ h1
    · have hlt : s.failures + 1 < s.max_failures := by omega
      have h1 := record_failure_below now s hlt
      have hop1 : (record_failure now s).opened_at = none := by rw [h1]; exact hop
      have hn : 1 ≤ n := by
        by_contra hn0
        have : n = 0 := by omega
        subst this
        omega
      apply ih _ hop1 hn
      rw [h1]
      show s.max_failures ≤ s.failures + 1 + n
      omega

lemma is_open_at_open_time (now : Nat) (s : CircuitState)
    (h : s.opened_at = some now) : is_open now s = true := by
  unfold is_open
  simp [h]

/-- C3: from a closed circuit with zero failures, max_failures consecutive
record_failure calls at time t open the circuit (is_open true at t); once
more than half_open_after seconds have elapsed since opening, is_open is
false; and a subsequent record_success resets the failure count to zero
and closes the circuit (opened_at cleared). -/
theorem circuit_opens_half_opens_closes (s0 : CircuitState) (t now : Nat)
    (hcl : s0.opened_at = none) (hf : s0.failures = 0)
    (hm : 1 ≤ s0.max_failures) (hnow : t + s0.half_open_after < now) :
    is_open t ((record_failure t)^[s0.max_failures] s0) = true ∧
    is_open now ((record_failure t)^[s0.max_failures] s0) = false ∧
    (record_success ((record_failure t)^[s0.max_failures] s0)).failures = 0 ∧
    (record_success ((record_failure t)^[s0.max_failures] s0)).opened_at = none := by
  have hopen : ((record_failure t)^[s0.max_failures] s0).opened_at = some t := by
    apply opened_iterate_some t s0.max_failures s0 hcl hm
    omega
  have hhalf : ((record_failure t)^[s0.max_failures] s0).half_open_after =
      s0.half_open_after := iterate_record_failure_half t s0.max_failures s0
  refine ⟨is_open_at_open_time t _ hopen, ?_, ?_, ?_⟩
  · unfold is_open
    rw [hopen]
    simp only [hhalf]
    rw [if_pos (by omega)]
  · unfold record_success
    simp only [hopen]
  · unfold record_success
    simp only [hopen]

/-- Witness for C3 at a concrete circuit: threshold 3, half-open window
60s, opened at t = 100, checked at now = 161. -/
theorem circuit_opens_half_opens_closes_witness :
    (freshCircuit.opened_at = none ∧ freshCircuit.failures = 0 ∧
      1 ≤ freshCircuit.max_failures ∧ 100 + freshCircuit.half_open_after < 161) ∧
    (is_open 100 ((record_failure 100)^[freshCircuit.max_failures] freshCircuit) = true ∧
     is_open 161 ((record_failure 100)^[freshCircuit.max_failures] freshCircuit) = false ∧
     (record_success ((record_failure 100)^[freshCircuit.max_failures] freshCircuit)).failures = 0 ∧
     (record_success ((record_failure 100)^[freshCircuit.max_failures] freshCircuit)).opened_at = none) :=
  ⟨by decide,
   circuit_opens_half_opens_closes freshCircuit 100 161 (by decide) (by decide)
     (by decide) (by decide)⟩

/-- C8 counterexample: a success recorded while the circuit is fully OPEN
(is_open true, half-open window NOT yet elapsed) still clears opened_at,
contradicting "cleared only on the first success observed after the
half-open window has elapsed". -/
theorem success_clears_opened_before_window :
    is_open 100 openCircuit = true ∧ is_half_open 100 openCircuit = false ∧
    (record_success openCircuit).opened_at = none := by decide

/-- C8 (amended): opened_at is set exactly when a failure brings the
failure count to the threshold while the circuit is not already open, and
is cleared by any success recorded while opened_at is set — whether or not
the half-open window has elapsed — which also resets the failure count. -/
theorem opened_at_transitions (s : CircuitState) (now : Nat) :
    (record_failure now s).opened_at =
      (if s.opened_at = none ∧ s.max_failures ≤ s.failures + 1
        then some now else s.opened_at) ∧
    (record_success s).opened_at = none ∧
    (record_success s).failures = (if s.opened_at.isSome then 0 else s.failures) := by
  refine ⟨?_, ?_, ?_⟩
  · rcases h : s.opened_at with _ | t <;>
      by_cases hc : s.max_failures ≤ s.failures + 1 <;>
        simp [record_failure, h, hc]
  · rcases h : s.opened_at with _ | t <;> simp [record_success, h]
  · rcases h : s.opened_at with _ | t <;> simp [record_success, h]

/-- C10: while the circuit is not open, record_success only increments the
success counter; the failure count and every other field are unchanged, so
failures aggregate across interleaved successes. -/
theorem record_success_closed_frame (s : CircuitState) (h : s.opened_at = none) :
    record_success s = { s with successes := s.successes + 1 } := by
  unfold record_success
  simp [h]

/-- Witness for C10 at a concrete closed circuit with two accumulated
failures: only successes changes (5 to 6); failures stays 2. -/
theorem record_success_closed_frame_witness :
    closedCircuit.opened_at = none ∧
    record_success closedCircuit =
      { failures := 2, successes := 6, last_failure_time := some 7
        opened_at := none, max_failures := 5, timeout_seconds := 300
        half_open_after := 60 } :=
  ⟨rfl, record_success_closed_frame closedCircuit rfl⟩

end CircuitBreaker

namespace AgentRunner

lemma waitLoop_never_exits (p : Proc) (h : p.exitTime = none) (timeout poll : Nat) :
    ∀ (fuel elapsed : Nat), waitLoop p timeout poll fuel elapsed = ⟨false, true⟩ := by
  intro fuel
  induction fuel with
  | zero => intro elapsed; rfl
  | succ n ih =>
    intro elapsed
    unfold waitLoop
    by_cases hlt : elapsed < timeout
    · rw [if_pos hlt]
      unfold pollExit
      rw [h]
      exact ih (elapsed + poll)
    · rw [if_neg hlt]

lemma waitLoop_observes_exit (p : Proc) (timeout poll e : Nat)
    (he : p.exitTime = some e) (hp : 1 ≤ poll) :
    ∀ (fuel elapsed : Nat), timeout + 1 ≤ fuel + elapsed →
      (∃ m : Nat, elapsed + m * poll < timeout ∧ e ≤ elapsed + m * poll) →
      waitLoop p timeout poll fuel elapsed = ⟨decide (p.exitCode = 0), false⟩ := by
  intro fuel
  induction fuel with
  | zero =>
    intro elapsed hfuel hfut
    obtain ⟨m, hm1, _⟩ := hfut
    have : elapsed ≤ elapsed + m * poll := Nat.le_add_right _ _
    omega
  | succ n ih =>
    intro elapsed hfuel hfut
    obtain ⟨m, hm1, hm2⟩ := hfut
    have hel : elapsed ≤ elapsed + m * poll := Nat.le_add_right _ _
    unfold waitLoop
    rw [if_pos (by omega)]
    simp only [pollExit, he]
    by_cases hobs : e ≤ elapsed
    · rw [if_pos hobs]
    · rw [if_neg hobs]
      rcases m with _ | m1
      · simp only [Nat.zero_mul, Nat.add_zero] at hm2
        omega
      · refine ih (elapsed + poll) (by omega) ⟨m1, ?_, ?_⟩
        · have : elapsed + poll + m1 * poll = elapsed + (m1 + 1) * poll := by ring
          omega
        · have : elapsed + poll + m1 * poll = elapsed + (m1 + 1) * poll := by ring
          omega

lemma waitLoop_unobserved_exit (p : Proc) (timeout poll e : Nat)
    (he : p.exitTime = some e)
    (hmiss : ∀ k : Nat, k * poll < timeout → ¬ e ≤ k * poll) :
    ∀ (fuel elapsed : Nat), (∃ j : Nat, elapsed = j * poll) →
      waitLoop p timeout poll fuel elapsed = ⟨false, true⟩ := by
  intro fuel
  induction fuel with
  | zero => intro elapsed _; rfl
  | succ n ih =>
    intro elapsed hj
    obtain ⟨j, hj⟩ := hj
    unfold waitLoop
    by_cases hlt : elapsed < timeout
    · rw [if_pos hlt]
      simp only [pollExit, he]
      have hobs : ¬ e ≤ elapsed := by
        rw [hj]
        exact hmiss j (by omega)
      rw [if_neg hobs]
      refine ih (elapsed + poll) ⟨j + 1, ?_⟩
      rw [hj]
      ring
    · rw [if_neg hlt]

lemma poll_window_observed (e poll timeout : Nat) (hp : 1 ≤ poll)
    (hw : e + poll ≤ timeout) :
    ∃ k : Nat, k * poll < timeout ∧ e ≤ k * poll := by
  have hdm := Nat.div_add_mod e poll
  have hml : e % poll < poll := Nat.mod_lt _ (by omega)
  by_cases hr : e % poll = 0
  · refine ⟨e / poll, ?_, ?_⟩
    · have h0 : e / poll * poll = poll * (e / poll) := Nat.mul_comm _ _
      rw [h0]
      omega
    · have h0 : e / poll * poll = poll * (e / poll) := Nat.mul_comm _ _
      rw [h0]
      omega
  · refine ⟨e / poll + 1, ?_, ?_⟩
    · have h1 : (e / poll + 1) * poll = poll * (e / poll) + poll := by ring
      rw [h1]
      omega
    · have h1 : (e / poll + 1) * poll = poll * (e / poll) + poll := by ring
      rw [h1]
      omega

/-- C1 counterexample: with timeout 10 and poll_interval 7 the loop polls
at elapsed 0 and 7 only; a process that exits with code 0 at elapsed 8 —
before the timeout — is never observed, so wait_for_completion calls
stop() and returns False, contradicting "returns true if the process
exits with code 0 before timeout". -/
theorem wait_for_completion_missed_zero_exit :
    ((⟨some 8, 0⟩ : Proc).exitTime = some 8 ∧ 8 < 10 ∧
      (⟨some 8, 0⟩ : Proc).exitCode = 0) ∧
    wait_for_completion ⟨some 8, 0⟩ 10 7 = ⟨false, true⟩ := by decide

/-- C1 (amended): the loop polls at the instants 0, poll, 2*poll, ...
strictly below timeout.  If the process's exit with code 0 is observed at
one of those polls, wait_for_completion returns true without stop(); an
observed non-zero exit returns false without stop(); if no exit is
observed at any poll before timeout — the process never exits, or its
exit (even a zero exit before timeout) lands after the last poll below
timeout — stop() is called before returning false; observation is
guaranteed whenever exit time + poll_interval ≤ timeout; and stop with a
pid file present leaves the process not running. -/
theorem wait_for_completion_spec (p : Proc) (timeout poll e : Nat)
    (genv : StopEnv) (hp : 1 ≤ poll) :
    (p.exitTime = some e → (∃ k : Nat, k * poll < timeout ∧ e ≤ k * poll) →
      p.exitCode = 0 → wait_for_completion p timeout poll = ⟨true, false⟩) ∧
    (p.exitTime = some e → (∃ k : Nat, k * poll < timeout ∧ e ≤ k * poll) →
      p.exitCode ≠ 0 → wait_for_completion p timeout poll = ⟨false, false⟩) ∧
    (p.exitTime = some e → (∀ k : Nat, k * poll < timeout → ¬ e ≤ k * poll) →
      wait_for_completion p timeout poll = ⟨false, true⟩) ∧
    (p.exitTime = none → wait_for_completion p timeout poll = ⟨false, true⟩) ∧
    (e + poll ≤ timeout → ∃ k : Nat, k * poll < timeout ∧ e ≤ k * poll) ∧
    (genv.pidPresent = true → (stop true genv).runningAfter = false) := by
  refine ⟨?_, ?_, ?_, ?_, ?_, ?_⟩
  · intro he hobs hc
    obtain ⟨k, hk1, hk2⟩ := hobs
    unfold wait_for_completion
    rw [waitLoop_observes_exit p timeout poll e he hp (timeout + 1) 0 (by omega)
      ⟨k, by omega, by omega⟩]
    simp [hc]
  · intro he hobs hc
    obtain ⟨k, hk1, hk2⟩ := hobs
    unfold wait_for_completion
    rw [waitLoop_observes_exit p timeout poll e he hp (timeout + 1) 0 (by omega)
      ⟨k, by omega, by omega⟩]
    simp [hc]
  · intro he hmiss
    exact waitLoop_unobserved_exit p timeout poll e he hmiss (timeout + 1) 0
      ⟨0, by omega⟩
  · intro he
    exact waitLoop_never_exits p he timeout poll (timeout + 1) 0
  · intro hw
    exact poll_window_observed e poll timeout hp hw
  · intro hpid
    unfold stop
    rw [hpid]
    by_cases hg : genv.gracefulExit <;> simp [hg]

/-- Witness for C1's amended theorem: a zero exit at tick 2 observed at
the poll at 2 (timeout 10, poll_interval 1) yields success without stop;
a zero exit at tick 9 under poll_interval 7 is observed at no poll below
timeout 10, so stop() runs and false is returned; with a pid file
present, stop leaves the process not running. -/
theorem wait_for_completion_spec_witness :
    (1 ≤ 1 ∧ (⟨some 2, 0⟩ : Proc).exitTime = some 2 ∧
      (2 * 1 < 10 ∧ 2 ≤ 2 * 1) ∧ (⟨some 2, 0⟩ : Proc).exitCode = 0 ∧
      (⟨some 9, 0⟩ : Proc).exitTime = some 9) ∧
    wait_for_completion ⟨some 2, 0⟩ 10 1 = ⟨true, false⟩ ∧
    wait_for_completion ⟨some 9, 0⟩ 10 7 = ⟨false, true⟩ ∧
    (stop true ⟨true, false⟩).runningAfter = false :=
  ⟨by refine ⟨by decide, rfl, ⟨by decide, by decide⟩, rfl, rfl⟩,
   (wait_for_completion_spec ⟨some 2, 0⟩ 10 1 2 ⟨true, false⟩ (by decide)).1
     rfl ⟨2, by decide, by decide⟩ rfl,
   (wait_for_completion_spec ⟨some 9, 0⟩ 10 7 9 ⟨true, false⟩ (by decide)).2.2.1
     rfl (by intro k hk; omega),
   (wait_for_completion_spec ⟨some 2, 0⟩ 10 1 2 ⟨true, false⟩
     (by decide)).2.2.2.2.2 rfl⟩

end AgentRunner

namespace GitLock

/-- C2: on every execution path of safe_commit and safe_merge — git
command failures, caught exceptions, success — the mutual-exclusion lock
is not held when the call returns; and the call returns normally exactly
when the lock was acquired within the bounded retry loop, the
lock-acquisition failure surfacing as a raised TimeoutError rather than a
hang or an unlocked git sequence. -/
theorem git_lock_fatal_safe (free : Nat → Bool) (env : CommitEnv)
    (menv : MergeEnv) (push delete_after : Bool) :
    (safe_commit free env push).lockHeldAfter = false ∧
    (safe_merge free menv delete_after).lockHeldAfter = false ∧
    outcomeIsReturn (safe_commit free env push).outcome = acquire_lock free ∧
    outcomeIsReturn (safe_merge free menv delete_after).outcome = acquire_lock free := by
  unfold safe_commit safe_merge
  by_cases h : acquire_lock free <;> simp [h, outcomeIsReturn, release_lock]

end GitLock

namespace Util

lemma lookup_dictInsert_self {α : Type} (k : String) (v : α) :
    ∀ (l : List (String × α)), (dictInsert k v l).lookup k = some v := by
  intro l
  induction l with
  | nil => simp [dictInsert, List.lookup]
  | cons kv rest ih =>
    obtain ⟨k1, v1⟩ := kv
    by_cases h : k1 = k
    · simp [dictInsert, h, List.lookup]
    · have hne : (k == k1) = false := by
        simp [beq_eq_false_iff_ne]
        exact fun hk => h hk.symm
      simp [dictInsert, h, List.lookup, hne, ih]

lemma lookup_filter_none_of_not_mem {α : Type} (k : String) (p : String × α → Bool) :
    ∀ (l : List (String × α)), k ∉ l.map Prod.fst → (l.filter p).lookup k = none := by
  intro l
  induction l with
  | nil => intro _; rfl
  | cons kv rest ih =>
    obtain ⟨k1, v1⟩ := kv
    intro hk
    have hk1 : ¬k = k1 := by
      intro h
      exact hk (by simp [h])
    have hkr : k ∉ rest.map Prod.fst := by
      intro h
      exact hk (by simp [h])
    have hne : (k == k1) = false := by simp [beq_eq_false_iff_ne, hk1]
    by_cases hp : p (k1, v1) = true
    · simp [List.filter, hp, List.lookup, hne, ih hkr]
    · simp only [Bool.not_eq_true] at hp
      simp [List.filter, hp, ih hkr]

lemma lookup_filter_dictInsert {α : Type} (k : String) (v : α) (p : String × α → Bool) :
    ∀ (l : List (String × α)), (l.map Prod.fst).Nodup →
      ((dictInsert k v l).filter p).lookup k =
        if p (k, v) then some v else none := by
  intro l
  induction l with
  | nil =>
    intro _
    by_cases hp : p (k, v) = true
    · simp [dictInsert, List.filter, hp, List.lookup]
    · simp only [Bool.not_eq_true] at hp
      simp [dictInsert, List.filter, hp, List.lookup]
  | cons kv rest ih =>
    obtain ⟨k1, v1⟩ := kv
    intro hnd
    have hnd2 : (k1 :: rest.map Prod.fst).Nodup := by simpa using hnd
    have hnd1 : k1 ∉ rest.map Prod.fst := (List.nodup_cons.mp hnd2).1
    have hndr : (rest.map Prod.fst).Nodup := (List.nodup_cons.mp hnd2).2
    by_cases h : k1 = k
    · subst h
      by_cases hp : p (k1, v) = true
      · simp [dictInsert, List.filter, hp, List.lookup]
      · simp only [Bool.not_eq_true] at hp
        simp [dictInsert, List.filter, hp, lookup_filter_none_of_not_mem k1 p rest hnd1]
    · have hne : (k == k1) = false := by
        simp [beq_eq_false_iff_ne]
        exact fun hk => h hk.symm
      by_cases hp : p (k1, v1) = true
      · simp [dictInsert, h, List.filter, hp, List.lookup, hne, ih hndr]
      · simp only [Bool.not_eq_true] at hp
        simp [dictInsert, h, List.filter, hp, ih hndr]

lemma lookup_filter_none_of_false {α : Type} (k : String) (v : α) (p : String × α → Bool) :
    ∀ (l : List (String × α)), (l.map Prod.fst).Nodup → l.lookup k = some v →
      p (k, v) = false → (l.filter p).lookup k = none := by
  intro l
  induction l with
  | nil => intro _ h; simp [List.lookup] at h
  | cons kv rest ih =>
    obtain ⟨k1, v1⟩ := kv
    intro hnd hlk hp
    have hnd2 : (k1 :: rest.map Prod.fst).Nodup := by simpa using hnd
    have hnd1 : k1 ∉ rest.map Prod.fst := (List.nodup_cons.mp hnd2).1
    have hndr : (rest.map Prod.fst).Nodup := (List.nodup_cons.mp hnd2).2
    by_cases h : k = k1
    · subst h
      have hv : v1 = v := by
        simpa [List.lookup] using hlk
      subst hv
      have hpk : p (k, v1) = false := hp
      simp [List.filter, hpk, lookup_filter_none_of_not_mem k p rest hnd1]
    · have hne : (k == k1) = false := by simp [beq_eq_false_iff_ne, h]
      have hlkr : rest.lookup k = some v := by
        simpa [List.lookup, hne] using hlk
      by_cases hp1 : p (k1, v1) = true
      · simp [List.filter, hp1, List.lookup, hne, ih hndr hlkr hp]
      · simp only [Bool.not_eq_true] at hp1
        simp [List.filter, hp1, ih hndr hlkr hp]

lemma mem_dictInsert {α : Type} (k : String) (v : α) (x : String × α) :
    ∀ (l : List (String × α)), x ∈ dictInsert k v l → x = (k, v) ∨ x ∈ l := by
  intro l
  induction l with
  | nil => intro h; simpa [dictInsert] using h
  | cons kv rest ih =>
    obtain ⟨k1, v1⟩ := kv
    intro hx
    by_cases h : k1 = k
    · simp only [dictInsert, if_pos h] at hx
      rcases List.mem_cons.mp hx with h1 | h1
      · exact Or.inl h1
      · exact Or.inr (List.mem_cons_of_mem _ h1)
    · simp only [dictInsert, if_neg h] at hx
      rcases List.mem_cons.mp hx with h1 | h1
      · exact Or.inr (by simp [h1])
      · rcases ih h1 with h2 | h2
        · exact Or.inl h2
        · exact Or.inr (List.mem_cons_of_mem _ h2)

end Util

namespace Idempotency

lemma record_keys_nodup (now : Int) (ttl : Nat) (data : List (String × IdemRecord))
    (hnd : (data.map Prod.fst).Nodup) :
    ((cleanup_expired now ttl data).map Prod.fst).Nodup := by
  apply List.Nodup.sublist _ hnd
  exact List.Sublist.map Prod.fst (List.filter_sublist data)

/-- C7: for every well-formed store, check(key, op) performed immediately
after record(key, op) returns true; and at any instant more than the TTL
after the record was written, check(key, op) returns false again. -/
theorem check_record_ttl_roundtrip (data : List (String × IdemRecord))
    (key op : String) (path : Option String) (now later : Int) (ttl : Nat)
    (hnd : (data.map Prod.fst).Nodup) (httl : 1 ≤ ttl)
    (hlater : ttlSeconds ttl < later - now) :
    check now ttl (record now ttl data key op path) key op = true ∧
    check later ttl (record now ttl data key op path) key op = false := by
  have hnd2 := record_keys_nodup now ttl data hnd
  have hfresh : (fun kv => notExpired now ttl kv.2)
      ((fullKey key op), (⟨op, now, path⟩ : IdemRecord)) = true := by
    simp only [notExpired, ttlSeconds, decide_eq_true_eq]
    omega
  have hstale : ¬((fun kv => notExpired later ttl kv.2)
      ((fullKey key op), (⟨op, now, path⟩ : IdemRecord)) = true) := by
    simp only [notExpired, ttlSeconds, decide_eq_true_eq]
    simp only [ttlSeconds] at hlater
    omega
  constructor
  · have h := Util.lookup_filter_dictInsert (fullKey key op)
      (⟨op, now, path⟩ : IdemRecord) (fun kv => notExpired now ttl kv.2)
      (cleanup_expired now ttl data) hnd2
    rw [if_pos hfresh] at h
    unfold check record
    unfold cleanup_expired
    unfold cleanup_expired at h
    rw [h]
    rfl
  · have h := Util.lookup_filter_dictInsert (fullKey key op)
      (⟨op, now, path⟩ : IdemRecord) (fun kv => notExpired later ttl kv.2)
      (cleanup_expired now ttl data) hnd2
    rw [if_neg hstale] at h
    unfold check record
    unfold cleanup_expired
    unfold cleanup_expired at h
    rw [h]
    rfl

/-- Witness for C7: an empty store, key "k", operation "generate_prd",
TTL 24 hours; recorded at t = 0, re-checked at t = 86401 seconds. -/
theorem check_record_ttl_roundtrip_witness :
    ((([] : List (String × IdemRecord)).map Prod.fst).Nodup ∧ 1 ≤ 24 ∧
      ttlSeconds 24 < (86401 : Int) - 0) ∧
    (check 0 24 (record 0 24 [] "k" "generate_prd" (some "prd.md")) "k" "generate_prd" = true ∧
     check 86401 24 (record 0 24 [] "k" "generate_prd" (some "prd.md")) "k" "generate_prd" = false) :=
  ⟨by refine ⟨by decide, by decide, by decide⟩,
   check_record_ttl_roundtrip [] "k" "generate_prd" (some "prd.md") 0 86401 24
     (by decide) (by decide) (by decide)⟩

/-- C9 counterexample: a record 1000000 seconds old with a 24-hour TTL is
expired — check treats it as absent — yet get_cached_result still returns
its cached result pointer, so not every read of the store treats an
expired record as absent. -/
theorem get_cached_result_ignores_ttl :
    notExpired 1000000 24 ⟨"op", 0, some "results/prd.md"⟩ = false ∧
    check 1000000 24 staleData "k" "op" = false ∧
    get_cached_result staleData "k" "op" = some "results/prd.md" := by decide

/-- C9 (amended): for a well-formed store holding an expired record,
check treats the record as absent and record persistently purges every
expired entry, but get_cached_result ignores the TTL and returns the
expired record's result pointer unchanged. -/
theorem expired_record_lazy_purge (data : List (String × IdemRecord))
    (key op : String) (path : Option String) (now : Int) (ttl : Nat)
    (r : IdemRecord)
    (hnd : (data.map Prod.fst).Nodup) (httl : 1 ≤ ttl)
    (hlk : data.lookup (fullKey key op) = some r)
    (hexp : notExpired now ttl r = false) :
    check now ttl data key op = false ∧
    (∀ kv ∈ record now ttl data key op path, notExpired now ttl kv.2 = true) ∧
    get_cached_result data key op = r.result_path := by
  refine ⟨?_, ?_, ?_⟩
  · unfold check cleanup_expired
    rw [Util.lookup_filter_none_of_false (fullKey key op) r _ data hnd hlk hexp]
    rfl
  · intro kv hkv
    unfold record at hkv
    rcases Util.mem_dictInsert _ _ kv _ hkv with h | h
    · subst h
      show notExpired now ttl ⟨op, now, path⟩ = true
      unfold notExpired ttlSeconds
      simp only [decide_eq_true_eq]
      omega
    · exact (List.mem_filter.mp h).2
  · unfold get_cached_result
    rw [hlk]

/-- Witness for C9's amended theorem at the concrete expired store. -/
theorem expired_record_lazy_purge_witness :
    ((staleData.map Prod.fst).Nodup ∧ 1 ≤ 24 ∧
      staleData.lookup (fullKey "k" "op") = some ⟨"op", 0, some "results/prd.md"⟩ ∧
      notExpired 1000000 24 ⟨"op", 0, some "results/prd.md"⟩ = false) ∧
    (check 1000000 24 staleData "k" "op" = false ∧
     (∀ kv ∈ record 1000000 24 staleData "k" "op" none, notExpired 1000000 24 kv.2 = true) ∧
     get_cached_result staleData "k" "op" = some "results/prd.md") := by
  refine ⟨by refine ⟨by decide, by decide, by decide, by decide⟩, ?_, ?_, ?_⟩
  · exact (expired_record_lazy_purge staleData "k" "op" none 1000000 24
      ⟨"op", 0, some "results/prd.md"⟩ (by decide) (by decide) (by decide) (by decide)).1
  · exact (expired_record_lazy_purge staleData "k" "op" none 1000000 24
      ⟨"op", 0, some "results/prd.md"⟩ (by decide) (by decide) (by decide) (by decide)).2.1
  · exact (expired_record_lazy_purge staleData "k" "op" none 1000000 24
      ⟨"op", 0, some "results/prd.md"⟩ (by decide) (by decide) (by decide) (by decide)).2.2

end Idempotency

namespace CostTracker

lemma cost_per_1k_nonneg (model : String) : 0 ≤ cost_per_1k model := by
  unfold cost_per_1k
  split_ifs <;> norm_num

lemma get_spent_record (budget : ℚ) (data : Ledger) (today : String)
    (tk : Nat) (md : String) :
    get_spent_today (record budget data today tk md).1 today =
      get_spent_today data today + ((tk : ℚ) / 1000) * cost_per_1k md := by
  simp only [record, get_spent_today, Util.lookup_dictInsert_self]
  cases h : List.lookup today data <;> simp [h]

lemma spent_recordMany_ge (budget : ℚ) (today : String) :
    ∀ (ops : List (Nat × String)) (data : Ledger),
      get_spent_today data today ≤
        get_spent_today (recordMany budget today ops data) today := by
  intro ops
  induction ops with
  | nil => intro data; simp [recordMany]
  | cons op rest ih =>
    intro data
    have h1 : get_spent_today data today ≤
        get_spent_today (record budget data today op.1 op.2).1 today := by
      rw [get_spent_record]
      have hc : 0 ≤ ((op.1 : ℚ) / 1000) * cost_per_1k op.2 :=
        mul_nonneg (by positivity) (cost_per_1k_nonneg op.2)
      linarith
    have h2 := ih (record budget data today op.1 op.2).1
    have hstep : recordMany budget today (op :: rest) data =
        recordMany budget today rest (record budget data today op.1 op.2).1 := by
      simp [recordMany]
    rw [hstep]
    exact le_trans h1 h2

/-- C4: check(est) returns false exactly when today's cumulative spend
plus the estimate exceeds the daily budget; on a violation it records five
failures on the protective circuit breaker — whose threshold is five —
leaving it with opened_at set (freshly opened when it was closed, hence
is_open true), and raises an alert; and after any same-day sequence of
record operations (spend never decreases within a day) check still
returns false. -/
theorem cost_tracker_check_budget (budget est : ℚ) (data : Ledger) (today : String)
    (cb : CircuitBreaker.CircuitState) (now : Nat) (ops : List (Nat × String))
    (hcb : cb.max_failures = 5)
    (hviol : budget < get_spent_today data today + est) :
    (check budget data today est cb now).1 = false ∧
    (∀ (d : Ledger) (e : ℚ), ((check budget d today e cb now).1 = true ↔
      get_spent_today d today + e ≤ budget)) ∧
    ((check budget data today est cb now).2.1).opened_at.isSome = true ∧
    (cb.opened_at = none →
      CircuitBreaker.is_open now ((check budget data today est cb now).2.1) = true) ∧
    (check budget data today est cb now).2.2 = true ∧
    (check budget (recordMany budget today ops data) today est cb now).1 = false := by
  have hch : check budget data today est cb now =
      (false, (CircuitBreaker.record_failure now)^[5] cb, true) := by
    simp only [check]
    rw [if_pos hviol]
    rfl
  refine ⟨?_, ?_, ?_, ?_, ?_, ?_⟩
  · rw [hch]
  · intro d e
    simp only [check]
    by_cases h : budget < get_spent_today d today + e
    · rw [if_pos h]
      constructor
      · intro hfalse; simp at hfalse
      · intro hle; linarith
    · rw [if_neg h]
      constructor
      · intro _; linarith
      · intro _; rfl
  · rw [hch]
    show ((CircuitBreaker.record_failure now)^[5] cb).opened_at.isSome = true
    rcases hop : cb.opened_at with _ | t
    · rw [CircuitBreaker.opened_iterate_some now 5 cb hop (by omega) (by omega)]
      rfl
    · rw [CircuitBreaker.iterate_record_failure_opened_of_some now t 5 cb hop]
      rfl
  · intro hop
    rw [hch]
    apply CircuitBreaker.is_open_at_open_time
    exact CircuitBreaker.opened_iterate_some now 5 cb hop (by omega) (by omega)
  · rw [hch]
  · have hviol2 : budget < get_spent_today (recordMany budget today ops data) today + est := by
      have := spent_recordMany_ge budget today ops data
      linarith
    simp only [check]
    rw [if_pos hviol2]

/-- Witness for C4: budget 50, today already at 50 spent, estimate 1, the
closed circuit with threshold 5, one further 1000-token record. -/
theorem cost_tracker_check_budget_witness :
    (CircuitBreaker.closedCircuit.max_failures = 5 ∧
      (50 : ℚ) < get_spent_today fullLedger "2026-10-12" + 1) ∧
    ((check 50 fullLedger "2026-10-12" 1 CircuitBreaker.closedCircuit 7).1 = false ∧
     ((check 50 fullLedger "2026-10-12" 1 CircuitBreaker.closedCircuit 7).2.1).opened_at.isSome = true ∧
     CircuitBreaker.is_open 7
       ((check 50 fullLedger "2026-10-12" 1 CircuitBreaker.closedCircuit 7).2.1) = true ∧
     (check 50 fullLedger "2026-10-12" 1 CircuitBreaker.closedCircuit 7).2.2 = true ∧
     (check 50 (recordMany 50 "2026-10-12" [(1000, "gemini-2.0-flash")] fullLedger)
       "2026-10-12" 1 CircuitBreaker.closedCircuit 7).1 = false) := by
  have hspent : get_spent_today fullLedger "2026-10-12" = 50 := by
    simp [get_spent_today, fullLedger]
  have hviol : (50 : ℚ) < get_spent_today fullLedger "2026-10-12" + 1 := by
    rw [hspent]; simp
  have h := cost_tracker_check_budget 50 1 fullLedger "2026-10-12"
    CircuitBreaker.closedCircuit 7 [(1000, "gemini-2.0-flash")] (by decide) hviol
  exact ⟨⟨by decide, hviol⟩, h.1, h.2.2.1, h.2.2.2.1 rfl, h.2.2.2.2.1, h.2.2.2.2.2⟩

end CostTracker

namespace Boss

/-- C5 counterexample: a running task whose metadata has no last_heartbeat
at all — started and never heartbeated — is reported alive by monitor_task
at an arbitrarily late instant (far beyond any heartbeat_timeout), its
process is not terminated and its status is not set to failed,
contradicting "including a task that was started and never wrote any
heartbeat". -/
theorem monitor_never_heartbeat_reports_alive :
    neverBeatMeta.last_heartbeat = none ∧
    monitor_task 1000000 30 (some neverBeatMeta) =
      ⟨true, false, some neverBeatMeta⟩ := by decide

/-- C5 (amended): for every monitored task that has written at least one
heartbeat, once that heartbeat is stale beyond heartbeat_timeout the
monitor reports the task not alive, invokes runner.stop() — which leaves
the process not running — and merges status=failed with reason
heartbeat_timeout into the metadata, as a state transition rather than an
exception; a task that never wrote any heartbeat is treated as alive. -/
theorem monitor_stale_heartbeat_kills (now hb : Int) (tmo : Nat) (m : TaskMeta)
    (g : Bool) (hhb : m.last_heartbeat = some hb)
    (hstale : (tmo : Int) < now - hb) :
    monitor_task now tmo (some m) =
      ⟨false, true,
        some { m with status := "failed", reason := some "heartbeat_timeout" }⟩ ∧
    (AgentRunner.stop true ⟨true, g⟩).runningAfter = false := by
  constructor
  · simp only [monitor_task, hhb]
    rw [if_pos hstale]
  · cases g <;> rfl

/-- Witness for C5's amended theorem: heartbeat written at t = 0, monitor
at t = 100 with a 30-second timeout. -/
theorem monitor_stale_heartbeat_kills_witness :
    ((⟨"running", "cpo", some 0, none⟩ : TaskMeta).last_heartbeat = some 0 ∧
      (30 : Int) < 100 - 0) ∧
    (monitor_task 100 30 (some ⟨"running", "cpo", some 0, none⟩) =
      ⟨false, true, some ⟨"failed", "cpo", some 0, some "heartbeat_timeout"⟩⟩ ∧
     (AgentRunner.stop true ⟨true, false⟩).runningAfter = false) :=
  ⟨by decide,
   monitor_stale_heartbeat_kills 100 0 30 ⟨"running", "cpo", some 0, none⟩ false
     rfl (by decide)⟩

end Boss

namespace AutoMerge

lemma run_auto_merge_remaining (mergeOk : String → Bool) (min_xp : Int) :
    ∀ (wss : List Workspace),
      (∀ ws ∈ wss, should_auto_merge ws.meta min_xp = true →
        mergeOk ws.task_id = true) →
      (run_auto_merge mergeOk min_xp wss).remaining =
        wss.filter (fun ws => !(should_auto_merge ws.meta min_xp)) := by
  intro wss
  induction wss with
  | nil => intro _; rfl
  | cons w rest ih =>
    intro hok
    have hokr : ∀ ws ∈ rest, should_auto_merge ws.meta min_xp = true →
        mergeOk ws.task_id = true :=
      fun ws hmem => hok ws (List.mem_cons_of_mem _ hmem)
    by_cases hs : should_auto_merge w.meta min_xp = true
    · have hmo : mergeOk w.task_id = true := hok w (List.mem_cons_self _ _) hs
      simp [run_auto_merge, hs, hmo, ih hokr]
    · have hs2 : should_auto_merge w.meta min_xp = false :=
        Bool.eq_false_iff.mpr hs
      simp [run_auto_merge, hs2, ih hokr]

lemma run_auto_merge_branches (mergeOk : String → Bool) (min_xp : Int) :
    ∀ (wss : List Workspace),
      (∀ ws ∈ wss, should_auto_merge ws.meta min_xp = true →
        mergeOk ws.task_id = true) →
      ∀ ws ∈ wss, should_auto_merge ws.meta min_xp = true →
        ("feat/" ++ ws.task_id) ∈ (run_auto_merge mergeOk min_xp wss).merged_branches := by
  intro wss
  induction wss with
  | nil => intro _ ws h; exact absurd h (List.not_mem_nil ws)
  | cons w rest ih =>
    intro hok ws hmem hq
    have hokr : ∀ ws2 ∈ rest, should_auto_merge ws2.meta min_xp = true →
        mergeOk ws2.task_id = true :=
      fun ws2 hm2 => hok ws2 (List.mem_cons_of_mem _ hm2)
    rcases List.mem_cons.mp hmem with heq | hmemr
    · subst heq
      have hmo : mergeOk ws.task_id = true := hok ws (List.mem_cons_self _ _) hq
      have hr : (run_auto_merge mergeOk min_xp (ws :: rest)).merged_branches =
          ("feat/" ++ ws.task_id) ::
            (run_auto_merge mergeOk min_xp rest).merged_branches := by
        simp [run_auto_merge, hq, hmo]
      rw [hr]
      exact List.mem_cons_self _ _
    · have hbr := ih hokr ws hmemr hq
      by_cases hs : should_auto_merge w.meta min_xp = true
      · have hmo : mergeOk w.task_id = true := hok w (List.mem_cons_self _ _) hs
        have hr : (run_auto_merge mergeOk min_xp (w :: rest)).merged_branches =
            ("feat/" ++ w.task_id) ::
              (run_auto_merge mergeOk min_xp rest).merged_branches := by
          simp [run_auto_merge, hs, hmo]
        rw [hr]
        exact List.mem_cons_of_mem _ hbr
      · have hs2 : should_auto_merge w.meta min_xp = false :=
          Bool.eq_false_iff.mpr hs
        have hr : (run_auto_merge mergeOk min_xp (w :: rest)).merged_branches =
            (run_auto_merge mergeOk min_xp rest).merged_branches := by
          simp [run_auto_merge, hs2]
        rw [hr]
        exact hbr

/-- C6: on a merge-sweep pass in which safe_merge succeeds for every
qualifying workspace, every workspace whose metadata shows status
completed and a score at or above the threshold has its branch
feat/{task_id} merged and its workspace removed (it is absent from the
remaining pool), and the workspaces left after the sweep are exactly the
non-qualifying ones, untouched and in order. -/
theorem merge_sweep_spec (mergeOk : String → Bool) (min_xp : Int)
    (wss : List Workspace)
    (hok : ∀ ws ∈ wss, should_auto_merge ws.meta min_xp = true →
      mergeOk ws.task_id = true) :
    (run_auto_merge mergeOk min_xp wss).remaining =
      wss.filter (fun ws => !(should_auto_merge ws.meta min_xp)) ∧
    (∀ ws ∈ wss, should_auto_merge ws.meta min_xp = true →
      ("feat/" ++ ws.task_id) ∈ (run_auto_merge mergeOk min_xp wss).merged_branches ∧
        ws ∉ (run_auto_merge mergeOk min_xp wss).remaining) := by
  have hrem := run_auto_merge_remaining mergeOk min_xp wss hok
  refine ⟨hrem, ?_⟩
  intro ws hmem hq
  refine ⟨run_auto_merge_branches mergeOk min_xp wss hok ws hmem hq, ?_⟩
  rw [hrem]
  intro hmf
  have hneg := (List.mem_filter.mp hmf).2
  rw [hq] at hneg
  simp at hneg

/-- Witness for C6 at a concrete pool: t1 (completed, score 85) is merged
and removed; t2 (running, score 90) is left untouched; merges always
succeed. -/
theorem merge_sweep_spec_witness :
    (∀ ws ∈ samplePool, should_auto_merge ws.meta 80 = true →
      (fun _ => true : String → Bool) ws.task_id = true) ∧
    ((run_auto_merge (fun _ => true) 80 samplePool).remaining =
      samplePool.filter (fun ws => !(should_auto_merge ws.meta 80)) ∧
     (∀ ws ∈ samplePool, should_auto_merge ws.meta 80 = true →
       ("feat/" ++ ws.task_id) ∈
         (run_auto_merge (fun _ => true) 80 samplePool).merged_branches ∧
         ws ∉ (run_auto_merge (fun _ => true) 80 samplePool).remaining)) :=
  ⟨by decide, merge_sweep_spec (fun _ => true) 80 samplePool (by decide)⟩

end AutoMerge
